import Mathlib

/-!
Shallow embedding of `src/fetch_data.py` of the Econdashboard repository.

Modelling conventions:
* Python floats are modelled as rationals (`Rat`); the `"%.2f"`-style
  formatting is `fmt2`, rounding half to even as Python float formatting does.
* Python exceptions are modelled by `Except String`; a caught exception
  corresponds to matching on the `.error` constructor.
* The network and the filesystem are modelled by an explicit trace of
  `Effect` values emitted by each function, and the responses of external
  services are oracle inputs (fields of `Env`), one per endpoint.
* The regular expressions of the script are hand-compiled to character-list
  scanners with the leftmost-match, greedy/lazy backtracking semantics of
  the `re` module; each scanner is documented with the pattern it embeds.
-/

namespace Econ

/-- Python exception values, reduced to their message. -/
abbrev PyErr := String

instance {ε α : Type} [DecidableEq ε] [DecidableEq α] :
    DecidableEq (Except ε α) := fun a b =>
  match a, b with
  | .error e, .error f =>
    if h : e = f then .isTrue (by rw [h])
    else .isFalse (fun c => h (Except.error.inj c))
  | .ok x, .ok y =>
    if h : x = y then .isTrue (by rw [h])
    else .isFalse (fun c => h (Except.ok.inj c))
  | .error _, .ok _ => .isFalse (fun c => Except.noConfusion c)
  | .ok _, .error _ => .isFalse (fun c => Except.noConfusion c)

/-- The dictionaries returned by every fetcher: exactly the keys
`value` and `date`, both strings. -/
structure FetchResult where
  value : String
  date : String
deriving DecidableEq, Repr

/-- The degraded result returned on failure paths. -/
def placeholder : FetchResult := ⟨"N/A", "N/A"⟩

/-- The hosts contacted by the script, one per call site kind. -/
inductive Endpoint where
  | worldbank
  | eodhd
  | yahooFinance
  | metalprice
  | mospiIndex
  | mospiPdf
  | tradingEconomics
deriving DecidableEq, Repr

/-- File open modes; the script only uses mode "w" (truncate/overwrite). -/
inductive FileMode where
  | w
deriving DecidableEq, Repr

/-- JSON values as constructed by the script (all leaves are strings). -/
inductive Json where
  | str (s : String)
  | arr (xs : List Json)
  | obj (fields : List (String × Json))

/-- Observable effects of the script: an HTTP GET issued through
`requests.get` (with its URL and explicit timeout in seconds), a history
download through the yfinance library (which manages its own HTTP
internally, with no timeout set by this program), and a file write. -/
inductive Effect where
  | httpGet (endpoint : Endpoint) (url : String) (timeoutSec : Nat)
  | yfHistory (ticker : String)
  | writeFile (path : String) (mode : FileMode) (content : Json)

/-- Endpoint classification of an effect, for stating that no request is
repeated; file writes carry no endpoint. -/
def Effect.tag : Effect → Option Endpoint
  | .httpGet ep _ _ => some ep
  | .yfHistory _ => some .yahooFinance
  | .writeFile _ _ _ => none

/-- Whether an effect is a file write. -/
def Effect.isWrite : Effect → Bool
  | .writeFile _ _ _ => true
  | _ => false

/-! ### Numeric formatting (`f"{x:.2f}"`) -/

/-- Floor of a rational as an integer. -/
def ratFloor (q : Rat) : Int := Int.fdiv q.num (Int.ofNat q.den)

/-- Round a rational to the nearest integer, ties to even
(the rounding of Python float formatting). -/
def rhe (q : Rat) : Int :=
  let f := ratFloor q
  let r := q - (f : Rat)
  if r > 1/2 then f + 1
  else if r < 1/2 then f
  else if f % 2 = 0 then f else f + 1

/-- Zero-pad a natural number to two digits. -/
def pad2 (n : Nat) : String := if n < 10 then "0" ++ toString n else toString n

/-- Zero-pad a natural number to four digits. -/
def pad4 (n : Nat) : String :=
  if n < 10 then "000" ++ toString n
  else if n < 100 then "00" ++ toString n
  else if n < 1000 then "0" ++ toString n
  else toString n

/-- Embedding of Python `f"{q:.2f}"` on the rational model of floats. -/
def fmt2 (q : Rat) : String :=
  let m := (rhe ((if q < 0 then -q else q) * 100)).toNat
  (if q < 0 then "-" else "") ++ toString (m / 100) ++ "." ++ pad2 (m % 100)

/-! ### Dates (`datetime`) -/

/-- A Python `datetime` restricted to its date part (the script only ever
formats dates, or orders them, and orders lexicographically as `datetime`
does). -/
structure PyDate where
  year : Nat
  month : Nat
  day : Nat
deriving DecidableEq, Repr

/-- `datetime.min` (year 1, month 1, day 1). -/
def datetimeMin : PyDate := ⟨1, 1, 1⟩

/-- Strict lexicographic order on dates, as Python compares `datetime`s. -/
def PyDate.blt (a b : PyDate) : Bool :=
  Nat.blt a.year b.year ||
    (a.year == b.year &&
      (Nat.blt a.month b.month ||
        (a.month == b.month && Nat.blt a.day b.day)))

/-- Non-strict lexicographic order on dates. -/
def PyDate.ble (a b : PyDate) : Bool := a.blt b || a == b

/-- Gregorian leap-year test, as `datetime` uses. -/
def isLeap (y : Nat) : Bool := y % 4 = 0 && (y % 100 ≠ 0 || y % 400 = 0)

/-- Days in a month of a given year, as `datetime` uses. -/
def daysInMonth (y m : Nat) : Nat :=
  if m = 2 then (if isLeap y then 29 else 28)
  else if m = 4 ∨ m = 6 ∨ m = 9 ∨ m = 11 then 30
  else 31

/-- The `datetime(year, month, day)` constructor: raises `ValueError` when
the year is outside `MINYEAR = 1 .. MAXYEAR = 9999` or the month or day is
out of range, as Python does. -/
def datetime_mk (y m d : Nat) : Except PyErr PyDate :=
  if 1 ≤ y ∧ y ≤ 9999 then
    if 1 ≤ m ∧ m ≤ 12 ∧ 1 ≤ d ∧ d ≤ daysInMonth y m then .ok ⟨y, m, d⟩
    else .error "ValueError: day is out of range for month"
  else .error "ValueError: year is out of range"

/-- `strftime("%Y-%m-%d")`. -/
def PyDate.ymd (d : PyDate) : String :=
  pad4 d.year ++ "-" ++ pad2 d.month ++ "-" ++ pad2 d.day

/-! ### Character and scanning helpers -/

/-- Value of a digit character. -/
def digitVal (c : Char) : Nat := c.toNat - 48

/-- Natural number denoted by a digit string (most significant first). -/
def digitsToNat (ds : List Char) : Nat :=
  ds.foldl (fun a c => a * 10 + digitVal c) 0

/-- Case-insensitive literal match: if `pat` is a prefix of `cs` up to
ASCII case, return the rest of `cs`. -/
def ciStrip : List Char → List Char → Option (List Char)
  | [], cs => some cs
  | _ :: _, [] => none
  | p :: ps, c :: cs => if p.toLower = c.toLower then ciStrip ps cs else none

/-- Python `\s` for ASCII text: space, tab, newline, carriage return,
form feed, vertical tab. -/
def pySpace (c : Char) : Bool :=
  c = ' ' || c = '\t' || c = '\n' || c = '\r' || c = '\x0c' || c = '\x0b'

/-- Whether `needle` occurs as a contiguous sublist of the input
(Python `in` on strings). -/
def containsSub (needle : List Char) : List Char → Bool
  | [] => needle.isEmpty
  | c :: cs => needle.isPrefixOf (c :: cs) || containsSub needle cs

/-! ### `_parse_date_from_url` -/

/-- The month-abbreviation alternation of `_parse_date_from_url`, in the
order it appears in the pattern (`Jan|Feb|...|Sep|Sept|Oct|Nov|Dec`). -/
def monthAbbrevs : List (String × Nat) :=
  [("Jan", 1), ("Feb", 2), ("Mar", 3), ("Apr", 4), ("May", 5), ("Jun", 6),
   ("Jul", 7), ("Aug", 8), ("Sep", 9), ("Sept", 9), ("Oct", 10), ("Nov", 11),
   ("Dec", 12)]

/-- Try `(Jan|Feb|...|Dec)(\d{2})` (case-insensitive) at the head of the
input: the alternatives are tried in pattern order, and an alternative
succeeds only when two digits follow it (so `Sept25` falls through `Sep`
to `Sept`). Returns `(month, two-digit year)`. -/
def tryMonthYY (cs : List Char) : Option (Nat × Nat) :=
  monthAbbrevs.findSome? fun nm =>
    match ciStrip nm.1.data cs with
    | none => none
    | some rest =>
      match rest with
      | a :: b :: _ =>
        if a.isDigit && b.isDigit then
          some (nm.2, digitVal a * 10 + digitVal b)
        else none
      | _ => none

/-- The two-digit-day alternative of `\d{1,2}` (tried first, as the
quantifier is greedy). -/
def p1TwoDig (cs : List Char) : Option (Nat × Nat × Nat) :=
  match cs with
  | a :: b :: rest =>
    if a.isDigit && b.isDigit then
      (tryMonthYY rest).map fun my => (digitVal a * 10 + digitVal b, my.1, my.2)
    else none
  | _ => none

/-- The one-digit-day alternative of `\d{1,2}`. -/
def p1OneDig (cs : List Char) : Option (Nat × Nat × Nat) :=
  match cs with
  | a :: rest =>
    if a.isDigit then
      (tryMonthYY rest).map fun my => (digitVal a, my.1, my.2)
    else none
  | _ => none

/-- Try `(\d{1,2})(Jan|...|Dec)(\d{2})` at the head of the input, with the
greedy day (two digits first, then one). Returns `(day, month, yy)`. -/
def p1At (cs : List Char) : Option (Nat × Nat × Nat) :=
  p1TwoDig cs <|> p1OneDig cs

/-- `re.search` of the first pattern of `_parse_date_from_url`: leftmost
position where `(\d{1,2})(Jan|...|Dec)(\d{2})` matches. -/
def searchP1 : List Char → Option (Nat × Nat × Nat)
  | [] => none
  | c :: cs => p1At (c :: cs) <|> searchP1 cs

/-- `re.search` of the second pattern of `_parse_date_from_url`: leftmost
position where `(Jan|...|Dec)(\d{2})` matches. -/
def searchP2 : List Char → Option (Nat × Nat)
  | [] => none
  | c :: cs => tryMonthYY (c :: cs) <|> searchP2 cs

/-- `_parse_date_from_url`: parse a heuristic date out of a URL. The
function itself is not wrapped in a `try`, so a `ValueError` raised by the
`datetime` constructor (day out of range) propagates to the caller, which
is modelled by the `.error` result. -/
def parse_date_from_url (url : String) : Except PyErr PyDate :=
  match searchP1 url.data with
  | some dmy => datetime_mk (2000 + dmy.2.2) dmy.2.1 dmy.1
  | none =>
    match searchP2 url.data with
    | some my => datetime_mk (2000 + my.2) my.1 1
    | none => .ok datetimeMin

/-! ### Timestamps (`datetime.fromtimestamp`) -/

/-- Civil date from a count of days since 1970-01-01 (proleptic Gregorian
calendar), the arithmetic `datetime.fromtimestamp` performs once the epoch
seconds are reduced to days. -/
def civilFromDays (z0 : Int) : Nat × Nat × Nat :=
  let z := z0 + 719468
  let era := Int.fdiv z 146097
  let doe := (z - era * 146097).toNat
  let yoe := (doe - doe / 1460 + doe / 36524 - doe / 146096) / 365
  let doy := doe - (365 * yoe + yoe / 4 - yoe / 100)
  let mp := (5 * doy + 2) / 153
  let d := doy - (153 * mp + 2) / 5 + 1
  let m := if mp < 10 then mp + 3 else mp - 9
  let y := era * 400 + yoe + (if m ≤ 2 then 1 else 0)
  (y.toNat, m, d)

/-- `datetime.fromtimestamp(ts)` reduced to its date (the runner clock is
taken as UTC). Raises (`OverflowError`/`ValueError`/`OSError`, all caught
alike by the callers) when the timestamp falls outside the years
`MINYEAR = 1 .. MAXYEAR = 9999`; `civilFromDays` clamps every pre-Gregorian
year to `0`, which this range check rejects. -/
def dateFromTimestamp (ts : Int) : Except PyErr PyDate :=
  let c := civilFromDays (Int.fdiv ts 86400)
  if 1 ≤ c.1 ∧ c.1 ≤ 9999 then .ok ⟨c.1, c.2.1, c.2.2⟩
  else .error "OverflowError: timestamp out of range"

/-! ### `get_worldbank_data` -/

/-- One element of the data array of a World Bank API response, with the
two fields the script reads: a nullable numeric `value` and a string
`date`. Responses that do not even have this shape are modelled by the
`.error` side of the oracle (the resulting `KeyError`/`TypeError` is
caught just like a network error). -/
structure WBEntry where
  value : Option Rat
  date : String
deriving DecidableEq, Repr

/-- The parsed JSON body of a World Bank response: a top-level array whose
element 1 (when present) is the data array. -/
abbrev WBResp := Except PyErr (List (List WBEntry))

/-- `get_worldbank_data(country_iso2, indicator, is_gdp)`. The oracle
`resp` is what `requests.get(url).json()` produces (or the exception it
raises). -/
def wbUrl (country_iso2 indicator : String) : String :=
  "https://api.worldbank.org/v2/country/" ++ country_iso2 ++
    "/indicator/" ++ indicator ++ "?format=json&mrnev=1"

def get_worldbank_data (country_iso2 indicator : String) (is_gdp : Bool)
    (resp : WBResp) : FetchResult × List Effect :=
  let req := Effect.httpGet .worldbank (wbUrl country_iso2 indicator) 10
  match resp with
  | .error _ => (placeholder, [req])
  | .ok res =>
    if 1 < res.length ∧ res.getD 1 [] ≠ [] then
      match (res.getD 1 []).head? with
      | none => (placeholder, [req])
      | some entry =>
        match entry.value with
        | none => (placeholder, [req])
        | some val =>
          if is_gdp then
            (⟨"$" ++ fmt2 (val / 1000000000) ++ "B", entry.date⟩, [req])
          else
            (⟨fmt2 val ++ "%", entry.date⟩, [req])
    else (placeholder, [req])

/-! ### `get_eodhd_bond` -/

/-- One row of an EODHD bond response, with the two fields the script
reads. -/
structure EodRow where
  close : Rat
  date : String
deriving DecidableEq, Repr

/-- `get_eodhd_bond(ticker)`; `apiKey` is the module-level
`EODHD_API_KEY` and `resp` the parsed JSON body (or the raised
exception). -/
def eodUrl (ticker apiKey : String) : String :=
  "https://eodhd.com/api/eod/" ++ ticker ++ ".GBOND?api_token=" ++
    apiKey ++ "&fmt=json&order=d&limit=1"

def get_eodhd_bond (ticker apiKey : String)
    (resp : Except PyErr (List EodRow)) : FetchResult × List Effect :=
  let req := Effect.httpGet .eodhd (eodUrl ticker apiKey) 10
  match resp with
  | .error _ => (placeholder, [req])
  | .ok res =>
    match res.head? with
    | none => (placeholder, [req])
    | some row => (⟨fmt2 row.close ++ "%", row.date⟩, [req])

/-! ### `get_yfinance_data` -/

/-- One row of a yfinance history frame, with the two pieces the script
reads: the closing price and the index date. -/
structure YfRow where
  close : Rat
  date : PyDate
deriving DecidableEq, Repr

/-- The yfinance history of a ticker (or the exception raised while
fetching it). -/
abbrev YfResp := Except PyErr (List YfRow)

/-- `get_yfinance_data(ticker, prefix)` (the second source parameter is
called `pfx` here because its source name is a reserved word in Lean). -/
def get_yfinance_data (ticker pfx : String) (resp : YfResp) :
    FetchResult × List Effect :=
  let eff := Effect.yfHistory ticker
  match resp with
  | .error _ => (placeholder, [eff])
  | .ok hist =>
    match hist.getLast? with
    | none => (placeholder, [eff])
    | some row => (⟨pfx ++ fmt2 row.close, row.date.ymd⟩, [eff])

/-! ### `get_metal_price` -/

/-- The parsed JSON body of a metalpriceapi response, with the two fields
the script reads: the `rates` object (an association of currency symbols
to rates) and the integer `timestamp`. -/
structure MetalResp where
  rates : List (String × Rat)
  timestamp : Int
deriving DecidableEq, Repr

/-- Python truthiness of `os.environ.get(...)`: `None` and the empty
string are falsy. -/
def keyTruthy : Option String → Bool
  | none => false
  | some s => !s.isEmpty

def metalUrl (key : Option String) (symbol : String) : String :=
  "https://api.metalpriceapi.com/v1/latest?api_key=" ++
    (key.getD "") ++ "&base=USD&currencies=" ++ symbol

/-- `get_metal_price(symbol, fallback_ticker)`; `key` is the module-level
`METALPRICE_API_KEY`, `mresp` the metalpriceapi response oracle and
`yresp` the yfinance oracle for the fallback ticker. A missing `rates`
entry for the symbol (`KeyError`), an out-of-range timestamp
(`datetime.fromtimestamp` raising — computed before the division, as in
the source) and a zero rate (`ZeroDivisionError`) are caught like any
other exception and fall back to yfinance. -/
def get_metal_price (symbol fallback_ticker : String) (key : Option String)
    (mresp : Except PyErr MetalResp) (yresp : YfResp) :
    FetchResult × List Effect :=
  let fb := get_yfinance_data fallback_ticker "$" yresp
  if keyTruthy key then
    let req := Effect.httpGet .metalprice (metalUrl key symbol) 10
    match mresp with
    | .error _ => (fb.1, req :: fb.2)
    | .ok res =>
      match res.rates.lookup symbol with
      | none => (fb.1, req :: fb.2)
      | some rate =>
        match dateFromTimestamp res.timestamp with
        | .error _ => (fb.1, req :: fb.2)
        | .ok dt =>
          if rate = 0 then (fb.1, req :: fb.2)
          else (⟨"$" ++ fmt2 (1 / rate), dt.ymd⟩, [req])
  else fb

/-! ### Number scanning (shared by the PDF and Trading Economics regexes) -/

/-- Parse `[0-9]+(?:\.[0-9]+)?` greedily at the head of the input,
returning the rational value and the rest. -/
def parseNumber (cs : List Char) : Option (Rat × List Char) :=
  let p := cs.span Char.isDigit
  if p.1.isEmpty then none
  else
    match p.2 with
    | '.' :: r2 =>
      let q := r2.span Char.isDigit
      if q.1.isEmpty then some ((digitsToNat p.1 : Rat), p.2)
      else
        some ((digitsToNat p.1 : Rat) +
          (digitsToNat q.1 : Rat) / ((10 : Rat) ^ q.1.length), q.2)
    | _ => some ((digitsToNat p.1 : Rat), p.2)

/-- Leftmost case-insensitive occurrence of a literal; returns the rest of
the input after the occurrence. -/
def findCiAfter (pat : List Char) : List Char → Option (List Char)
  | [] => if pat.isEmpty then some [] else none
  | c :: cs =>
    match ciStrip pat (c :: cs) with
    | some r => some r
    | none => findCiAfter pat cs

/-- First number (`[0-9]+(?:\.[0-9]+)?` at the first digit) in the
input. -/
def findFirstNumber : List Char → Option Rat
  | [] => none
  | c :: cs =>
    if c.isDigit then (parseNumber (c :: cs)).map Prod.fst
    else findFirstNumber cs

/-! ### `_extract_cpi_from_pdf` -/

/-- Try `All\s+India` (case-insensitive) at the head of the input; on
success return the rest after `India`. -/
def allIndiaAt (cs : List Char) : Option (List Char) :=
  match ciStrip "all".data cs with
  | none => none
  | some rest =>
    let p := rest.span pySpace
    if p.1.isEmpty then none else ciStrip "india".data p.2

/-- Leftmost match of `All\s+India`. -/
def searchAllIndia : List Char → Option (List Char)
  | [] => none
  | c :: cs => allIndiaAt (c :: cs) <|> searchAllIndia cs

/-- `re.search(r"All\s+India.*?Inflation.*?([0-9]+(?:\.[0-9]+)?)\s*%?",
text, re.I | re.S)`, reduced to its captured number. With `re.S` the lazy
gaps range over everything, so the leftmost match takes the first
`All\s+India`, the first `Inflation` after it, and the first number after
that (the trailing `\s*%?` can never fail); if any stage has no
occurrence, no match exists at all. -/
def findCpiNum (text : List Char) : Option Rat := do
  let r1 ← searchAllIndia text
  let r2 ← findCiAfter "inflation".data r1
  findFirstNumber r2

/-- The full month names of the pattern of `_extract_cpi_from_pdf`, in
pattern order (they are mutually prefix-free, so order is immaterial). -/
def fullMonths : List String :=
  ["January", "February", "March", "April", "May", "June", "July",
   "August", "September", "October", "November", "December"]

/-- Try `(January|...|December)\s+(\d{4})` (case-insensitive) at the head
of the input; on success return the title-cased month name (`.title()` of
a case-insensitive match of a full name is the name itself) and the
four-digit year as matched. -/
def monthYearAt (cs : List Char) : Option (String × String) :=
  fullMonths.findSome? fun nm =>
    match ciStrip nm.data cs with
    | none => none
    | some rest =>
      let p := rest.span pySpace
      if p.1.isEmpty then none
      else
        match p.2 with
        | a :: b :: c :: d :: _ =>
          if a.isDigit && b.isDigit && c.isDigit && d.isDigit then
            some (nm, String.mk [a, b, c, d])
          else none
        | _ => none

/-- Leftmost match of `(January|...|December)\s+(\d{4})`. -/
def searchMonthYear : List Char → Option (String × String)
  | [] => none
  | c :: cs => monthYearAt (c :: cs) <|> searchMonthYear cs

/-- A downloaded PDF, reduced to what `pdfplumber` yields from it: the
`extract_text()` of each page (`none` when `extract_text` returns
`None`). A download or parse failure is the `.error` side of the
oracle. -/
abbrev PdfDoc := List (Option String)

/-- `_extract_cpi_from_pdf(pdf_url)`; `resp` is the oracle for the
download and `pdfplumber` parse of `pdf_url`. Note the `_parse_date_from_url`
fallback runs inside the `try`, so a `ValueError` it raises degrades the
whole result to the placeholder. -/
def extract_cpi_from_pdf (pdf_url : String) (resp : Except PyErr PdfDoc) :
    FetchResult × List Effect :=
  let req := Effect.httpGet .mospiPdf pdf_url 20
  match resp with
  | .error _ => (placeholder, [req])
  | .ok pages =>
    let text := String.intercalate "\n" ((pages.take 6).map (·.getD ""))
    let value :=
      match findCpiNum text.data with
      | some q => fmt2 q ++ "%"
      | none => "N/A"
    match searchMonthYear text.data with
    | some my => (⟨value, my.1 ++ " " ++ my.2⟩, [req])
    | none =>
      match parse_date_from_url pdf_url with
      | .error _ => (placeholder, [req])
      | .ok dt =>
        (⟨value, if dt ≠ datetimeMin then dt.ymd else "N/A"⟩, [req])

/-! ### `get_mospi_cpi_latest` -/

/-- Does a case-insensitive `ends with ".pdf"` hold? -/
def endsWithCi (pat cs : List Char) : Bool :=
  (pat.reverse.map Char.toLower).isPrefixOf (cs.reverse.map Char.toLower)

/-- One attempt of `href="([^"]+\.pdf)"` (case-insensitive) at the head of
the input: after the literal `href="`, the greedy `[^"]+` must run to the
next quote, so the match succeeds exactly when the run up to the next
quote is non-empty, ends with `.pdf` up to case, and is followed by a
quote. Returns the captured run and the rest after the closing quote. -/
def tryHrefAt (cs : List Char) : Option (List Char × List Char) :=
  match ciStrip "href=\"".data cs with
  | none => none
  | some rest =>
    let p := rest.span (fun c => c ≠ '"')
    match p.2 with
    | '"' :: after =>
      if 5 ≤ p.1.length && endsWithCi ".pdf".data p.1 then
        some (p.1, after)
      else none
    | _ => none

/-- Fuelled scan of `re.findall(r'href="([^"]+\.pdf)"', html, re.I)`:
advance one character on a failed attempt, continue after the closing
quote on a successful one (non-overlapping matches). A successful attempt
consumes at least seven characters, so fuel equal to the input length
never runs out. -/
def hrefScanF : Nat → List Char → List String
  | 0, _ => []
  | _ + 1, [] => []
  | f + 1, c :: cs =>
    match tryHrefAt (c :: cs) with
    | some r => String.mk r.1 :: hrefScanF f r.2
    | none => hrefScanF f cs

/-- `re.findall(r'href="([^"]+\.pdf)"', html, re.I)`. -/
def findPdfHrefs (html : String) : List String :=
  hrefScanF html.data.length html.data

/-- `"CPI" in l.upper()`. -/
def containsCPI (l : String) : Bool :=
  containsSub "CPI".data (l.data.map Char.toUpper)

/-- Python `str.startswith`, on the character lists. -/
def pyStartsWith (pre s : String) : Bool := pre.data.isPrefixOf s.data

/-- `l.lstrip("/")`. -/
def lstripSlash (s : String) : String := String.mk (s.data.dropWhile (· = '/'))

/-- The local `normalize` of `get_mospi_cpi_latest`. -/
def normalize (link : String) : String :=
  if pyStartsWith "http" link then link
  else if pyStartsWith "//" link then "https:" ++ link
  else if pyStartsWith "/" link then "https://www.mospi.gov.in" ++ link
  else "https://www.mospi.gov.in/" ++ lstripSlash link

/-- Left-to-right fallible map: the order in which Python `max` evaluates
its key function on the links, with the first raised exception
propagating. -/
def mapExcept {α β : Type} (f : α → Except PyErr β) :
    List α → Except PyErr (List β)
  | [] => .ok []
  | a :: as =>
    match f a with
    | .error e => .error e
    | .ok b =>
      match mapExcept f as with
      | .error e => .error e
      | .ok bs => .ok (b :: bs)

/-- Python `max` with a key function, on elements paired with their
already-computed keys: later elements replace the current best only when
strictly greater, so ties keep the earliest element. -/
def pyMaxGo (best : String × PyDate) :
    List (String × PyDate) → String × PyDate
  | [] => best
  | p :: ps => pyMaxGo (if best.2.blt p.2 then p else best) ps

/-- The link list `get_mospi_cpi_latest` builds from the index page:
`.pdf` hrefs, filtered to those containing `CPI` up to case, each
normalized to an absolute URL. -/
def mospiLinks (html : String) : List String :=
  ((findPdfHrefs html).filter containsCPI).map normalize

def mospiPageUrl : String := "https://www.mospi.gov.in/cpi"

/-- `get_mospi_cpi_latest()`; `htmlResp` is the oracle for the index page
and `pdfNet` the oracle for PDF downloads, keyed by URL. `max` evaluates
the key on every link, so a `ValueError` from `_parse_date_from_url` on
any link is caught by the outer handler and degrades to the
placeholder. -/
def get_mospi_cpi_latest (htmlResp : Except PyErr String)
    (pdfNet : String → Except PyErr PdfDoc) : FetchResult × List Effect :=
  let req := Effect.httpGet .mospiIndex mospiPageUrl 10
  match htmlResp with
  | .error _ => (placeholder, [req])
  | .ok html =>
    let links := mospiLinks html
    if links.isEmpty then (placeholder, [req])
    else
      match mapExcept parse_date_from_url links with
      | .error _ => (placeholder, [req])
      | .ok dates =>
        match links.zip dates with
        | [] => (placeholder, [req])
        | p :: ps =>
          let latest_url := (pyMaxGo p ps).1
          let r := extract_cpi_from_pdf latest_url (pdfNet latest_url)
          (r.1, req :: r.2)

/-! ### `get_brent_crude` -/

/-- One attempt of `([0-9]+(?:\.[0-9]+)?)\s*USD/Bbl` under a lazy gap:
at a digit position the greedy number runs as far as it can (any shorter
candidate is followed by a digit or a dot and so can never reach `USD`),
then optional whitespace, then the literal `USD/Bbl` up to case. The scan
advances one character on failure, as the lazy `.*?` does. Returns the
number and the rest after `USD/Bbl`. -/
def scanNumUSD : List Char → Option (Rat × List Char)
  | [] => none
  | c :: cs =>
    (if c.isDigit then
      match parseNumber (c :: cs) with
      | none => none
      | some nr =>
        let p := nr.2.span pySpace
        match ciStrip "usd/bbl".data p.2 with
        | none => none
        | some after => some (nr.1, after)
     else none)
    <|> scanNumUSD cs

/-- `\d{1,2},`: one or two digits followed by a comma, two digits
preferred; returns the day digits as matched and the rest after the
comma. -/
def dayComma : List Char → Option (List Char × List Char)
  | a :: b :: c :: rest =>
    if a.isDigit && b.isDigit && c = ',' then some ([a, b], rest)
    else if a.isDigit && b = ',' then some ([a], c :: rest)
    else none
  | [a, b] => if a.isDigit && b = ',' then some ([a], []) else none
  | _ => none

/-- One attempt of `on\s*([A-Za-z]+\s+\d{1,2},\s+\d{4})` at the head of
the input: the literal `on` up to case, optional whitespace, then the
date group (letter run, whitespace, day digits, comma, whitespace, four
digits). Returns the letter run, the day digits as matched, and the
year. -/
def onDateAt (cs : List Char) : Option (String × List Char × Nat) :=
  match ciStrip "on".data cs with
  | none => none
  | some rest =>
    let w0 := rest.span pySpace
    let lt := w0.2.span Char.isAlpha
    if lt.1.isEmpty then none
    else
      let w1 := lt.2.span pySpace
      if w1.1.isEmpty then none
      else
        match dayComma w1.2 with
        | none => none
        | some dc =>
          let w2 := dc.2.span pySpace
          if w2.1.isEmpty then none
          else
            match w2.2 with
            | a :: b :: c :: d :: _ =>
              if a.isDigit && b.isDigit && c.isDigit && d.isDigit then
                some (String.mk lt.1, dc.1, digitsToNat [a, b, c, d])
              else none
            | _ => none

/-- Leftmost occurrence of `on\s*(date group)`, advancing one character
on failure as the lazy gap does. -/
def scanOnDate : List Char → Option (String × List Char × Nat)
  | [] => none
  | c :: cs => onDateAt (c :: cs) <|> scanOnDate cs

/-- `re.search` of the Trading Economics pattern
`Brent.*?([0-9]+(?:\.[0-9]+)?)\s*USD/Bbl.*?on\s*([A-Za-z]+\s+\d{1,2},\s+\d{4})`
with `re.I | re.S`. Everything a later `Brent` (or a later number) could
reach is also reachable from the first, so the match is the pipeline of
first occurrences. Returns the price and the pieces of the date group. -/
def brentTE (html : List Char) : Option (Rat × String × List Char × Nat) := do
  let r1 ← findCiAfter "brent".data html
  let nu ← scanNumUSD r1
  let od ← scanOnDate nu.2
  return (nu.1, od)

/-- `datetime.strptime(s, "%B %d, %Y")` on a string already of the shape
`letters, whitespace, day digits, comma, whitespace, four digits`: `%B`
requires the letter run to be a full month name up to case, `%d` accepts
`1`-`9`, `01`-`09` and `10`-`31` as digit forms, and the `datetime`
constructor then checks the day against the month. -/
def monthFromNameCI (s : String) : Option Nat :=
  (fullMonths.findIdx? fun nm =>
    nm.data.map Char.toLower == s.data.map Char.toLower).map (· + 1)

/-- The digit forms `%d` accepts, with their value. -/
def pyDayOk : List Char → Option Nat
  | [c] => if c = '0' then none else some (digitVal c)
  | [c1, c2] =>
    if c1 = '0' then (if c2 = '0' then none else some (digitVal c2))
    else
      let v := digitVal c1 * 10 + digitVal c2
      if v ≤ 31 then some v else none
  | _ => none

/-- `strptime("%B %d, %Y")` on the captured date group, as a fallible
date. -/
def strptimeBdY (mname : String) (ds : List Char) (yr : Nat) :
    Except PyErr PyDate :=
  match monthFromNameCI mname with
  | none => .error "ValueError: unrecognized month"
  | some m =>
    match pyDayOk ds with
    | none => .error "ValueError: bad day field"
    | some d => datetime_mk yr m d

def teUrl : String := "https://tradingeconomics.com/commodity/brent-crude-oil"

/-- `get_brent_crude()`; `yresp` is the yfinance oracle for `BZ=F` and
`teResp` the Trading Economics page oracle. -/
def get_brent_crude (yresp : YfResp) (teResp : Except PyErr String) :
    FetchResult × List Effect :=
  let d := get_yfinance_data "BZ=F" "$" yresp
  if d.1.value ≠ "N/A" then d
  else
    let req := Effect.httpGet .tradingEconomics teUrl 10
    match teResp with
    | .error _ => (placeholder, d.2 ++ [req])
    | .ok html =>
      match brentTE html.data with
      | none => (placeholder, d.2 ++ [req])
      | some r =>
        match strptimeBdY r.2.1 r.2.2.1 r.2.2.2 with
        | .error _ => (placeholder, d.2 ++ [req])
        | .ok date => (⟨"$" ++ fmt2 r.1, date.ymd⟩, d.2 ++ [req])

/-! ### `main` -/

/-- The current wall-clock instant, already converted to IST (the script
only formats it). -/
structure PyDateTime where
  year : Nat
  month : Nat
  day : Nat
  hour : Nat
  minute : Nat
deriving DecidableEq, Repr

/-- `datetime.now(ist).strftime("%Y-%m-%d %I:%M %p IST")`. -/
def formatNow (t : PyDateTime) : String :=
  pad4 t.year ++ "-" ++ pad2 t.month ++ "-" ++ pad2 t.day ++ " " ++
  pad2 (if t.hour % 12 = 0 then 12 else t.hour % 12) ++ ":" ++
  pad2 t.minute ++ " " ++ (if t.hour < 12 then "AM" else "PM") ++ " IST"

/-- The run environment: the clock, the two environment variables, and
one response oracle per external service (keyed by the varying part of
the request where there is one). -/
structure Env where
  now : PyDateTime
  metalpriceKey : Option String
  eodhdKeyEnv : Option String
  wb : String → String → WBResp
  eod : String → Except PyErr (List EodRow)
  yf : String → YfResp
  metal : String → Except PyErr MetalResp
  mospiHtml : Except PyErr String
  pdfNet : String → Except PyErr PdfDoc
  teHtml : Except PyErr String

/-- `EODHD_API_KEY = os.environ.get("EODHD_API_KEY", "demo")`. -/
def EODHD_API_KEY (env : Env) : String := env.eodhdKeyEnv.getD "demo"

/-- One `{"metric": m, **result}` row of the output. -/
def rowJson (metric : String) (r : FetchResult) : Json :=
  .obj [("metric", .str metric), ("value", .str r.value),
        ("date", .str r.date)]

/-- `main()`: the seventeen fetches in source order, the assembled
dictionary, and the single serialization to `data.json` (mode `"w"`,
truncating any previous contents). Returns the dictionary (as the JSON
value `json.dump` serializes) and the effect trace of the run. -/
def main (env : Env) : Json × List Effect :=
  let gdpIN := get_worldbank_data "IN" "NY.GDP.MKTP.CD" true
    (env.wb "IN" "NY.GDP.MKTP.CD")
  let debtIN := get_worldbank_data "IN" "GC.DOD.TOTL.GD.ZS" false
    (env.wb "IN" "GC.DOD.TOTL.GD.ZS")
  let fiscIN := get_worldbank_data "IN" "GC.NLD.TOTL.GD.ZS" false
    (env.wb "IN" "GC.NLD.TOTL.GD.ZS")
  let cpiIN := get_mospi_cpi_latest env.mospiHtml env.pdfNet
  let bondIN := get_eodhd_bond "IN10Y" (EODHD_API_KEY env) (env.eod "IN10Y")
  let nseIN := get_yfinance_data "^NSEI" "" (env.yf "^NSEI")
  let gdpUS := get_worldbank_data "US" "NY.GDP.MKTP.CD" true
    (env.wb "US" "NY.GDP.MKTP.CD")
  let debtUS := get_worldbank_data "US" "GC.DOD.TOTL.GD.ZS" false
    (env.wb "US" "GC.DOD.TOTL.GD.ZS")
  let bondUS := get_eodhd_bond "US10Y" (EODHD_API_KEY env) (env.eod "US10Y")
  let gspcUS := get_yfinance_data "^GSPC" "" (env.yf "^GSPC")
  let gdpCN := get_worldbank_data "CN" "NY.GDP.MKTP.CD" true
    (env.wb "CN" "NY.GDP.MKTP.CD")
  let debtCN := get_worldbank_data "CN" "GC.DOD.TOTL.GD.ZS" false
    (env.wb "CN" "GC.DOD.TOTL.GD.ZS")
  let bondCN := get_eodhd_bond "CN10Y" (EODHD_API_KEY env) (env.eod "CN10Y")
  let sseCN := get_yfinance_data "000001.SS" "" (env.yf "000001.SS")
  let gold := get_metal_price "XAU" "GC=F" env.metalpriceKey
    (env.metal "XAU") (env.yf "GC=F")
  let silver := get_metal_price "XAG" "SI=F" env.metalpriceKey
    (env.metal "XAG") (env.yf "SI=F")
  let brent := get_brent_crude (env.yf "BZ=F") env.teHtml
  let data : Json := .obj
    [("last_updated", .str (formatNow env.now)),
     ("india", .arr
       [rowJson "GDP" gdpIN.1, rowJson "Debt" debtIN.1,
        rowJson "Fiscal deficit (% of GDP)" fiscIN.1,
        rowJson "CPI" cpiIN.1, rowJson "10 yr bond yield" bondIN.1,
        rowJson "Mkt Cap NSE" nseIN.1]),
     ("us", .arr
       [rowJson "GDP" gdpUS.1, rowJson "Debt" debtUS.1,
        rowJson "10 yr bond yield" bondUS.1,
        rowJson "Mkt Cap (Index proxy)" gspcUS.1]),
     ("china", .arr
       [rowJson "GDP" gdpCN.1, rowJson "Debt" debtCN.1,
        rowJson "10 yr bond yield" bondCN.1,
        rowJson "Mkt Cap (Index proxy)" sseCN.1]),
     ("commodities", .arr
       [rowJson "Gold price" gold.1, rowJson "Silver price" silver.1,
        rowJson "Brent crude" brent.1])]
  (data,
   gdpIN.2 ++ debtIN.2 ++ fiscIN.2 ++ cpiIN.2 ++ bondIN.2 ++ nseIN.2 ++
   gdpUS.2 ++ debtUS.2 ++ bondUS.2 ++ gspcUS.2 ++
   gdpCN.2 ++ debtCN.2 ++ bondCN.2 ++ sseCN.2 ++
   gold.2 ++ silver.2 ++ brent.2 ++
   [Effect.writeFile "data.json" .w data])

/-! ### Order lemmas for `PyDate` -/

theorem PyDate.ble_refl (a : PyDate) : a.ble a = true := by
  simp [PyDate.ble]

theorem PyDate.blt_iff (ay am ad by0 bm bd : Nat) :
    (PyDate.mk ay am ad).blt ⟨by0, bm, bd⟩ = true ↔
      ay < by0 ∨ (ay = by0 ∧ (am < bm ∨ (am = bm ∧ ad < bd))) := by
  simp [PyDate.blt, Nat.blt_eq]

theorem PyDate.ble_iff (ay am ad by0 bm bd : Nat) :
    (PyDate.mk ay am ad).ble ⟨by0, bm, bd⟩ = true ↔
      ay < by0 ∨ (ay = by0 ∧ (am < bm ∨ (am = bm ∧ ad ≤ bd))) := by
  simp only [PyDate.ble, Bool.or_eq_true, beq_iff_eq, PyDate.blt_iff,
    PyDate.mk.injEq]
  omega

theorem PyDate.not_blt (a b : PyDate) (h : a.blt b = false) :
    b.ble a = true := by
  rcases a with ⟨ay, am, ad⟩
  rcases b with ⟨by0, bm, bd⟩
  have hn : ¬((PyDate.mk ay am ad).blt ⟨by0, bm, bd⟩ = true) := by simp [h]
  rw [PyDate.blt_iff] at hn
  rw [PyDate.ble_iff]
  omega

theorem PyDate.blt_ble (a b : PyDate) (h : a.blt b = true) :
    a.ble b = true := by
  simp [PyDate.ble, h]

theorem PyDate.ble_trans {a b c : PyDate} (h1 : a.ble b = true)
    (h2 : b.ble c = true) : a.ble c = true := by
  rcases a with ⟨ay, am, ad⟩
  rcases b with ⟨by0, bm, bd⟩
  rcases c with ⟨cy, cm, cd⟩
  rw [PyDate.ble_iff] at h1 h2 ⊢
  omega

/-! ### Lemmas about the Python `max` fold -/

theorem pyMaxGo_mem (p : String × PyDate) (ps : List (String × PyDate)) :
    pyMaxGo p ps ∈ p :: ps := by
  induction ps generalizing p with
  | nil => simp [pyMaxGo]
  | cons q qs ih =>
    rw [pyMaxGo]
    have h := ih (if p.2.blt q.2 then q else p)
    rcases List.mem_cons.mp h with h' | h'
    · rw [h']
      split
      · simp
      · simp
    · exact List.mem_cons.mpr (Or.inr (List.mem_cons.mpr (Or.inr h')))

theorem pyMaxGo_ge (p : String × PyDate) (ps : List (String × PyDate)) :
    ∀ q ∈ p :: ps, q.2.ble (pyMaxGo p ps).2 = true := by
  induction ps generalizing p with
  | nil =>
    intro q hq
    rw [List.mem_singleton] at hq
    rw [hq, pyMaxGo]
    exact PyDate.ble_refl _
  | cons r rs ih =>
    intro q hq
    rw [pyMaxGo]
    have hp : p.2.ble (if p.2.blt r.2 then r else p).2 = true := by
      split
      · next hb => exact PyDate.blt_ble _ _ hb
      · exact PyDate.ble_refl _
    have hr : r.2.ble (if p.2.blt r.2 then r else p).2 = true := by
      split
      · exact PyDate.ble_refl _
      · next hb => exact PyDate.not_blt _ _ (by simpa using hb)
    have hmax := ih (if p.2.blt r.2 then r else p)
    rcases List.mem_cons.mp hq with h | h
    · exact PyDate.ble_trans (h ▸ hp)
        (hmax _ (List.mem_cons_self _ _))
    · rcases List.mem_cons.mp h with h2 | h2
      · exact PyDate.ble_trans (h2 ▸ hr)
          (hmax _ (List.mem_cons_self _ _))
      · exact hmax q (List.mem_cons.mpr (Or.inr h2))

/-! ### Lemmas about `mapExcept` -/

theorem mapExcept_ok_length {α β : Type} (f : α → Except PyErr β) :
    ∀ (l : List α) (l' : List β), mapExcept f l = .ok l' →
      l'.length = l.length := by
  intro l
  induction l with
  | nil =>
    intro l' h
    simp only [mapExcept, Except.ok.injEq] at h
    simp [← h]
  | cons a as ih =>
    intro l' h
    simp only [mapExcept] at h
    cases hfa : f a with
    | error e => rw [hfa] at h; exact absurd h (by simp)
    | ok b =>
      rw [hfa] at h
      cases hrest : mapExcept f as with
      | error e => rw [hrest] at h; exact absurd h (by simp)
      | ok bs =>
        rw [hrest] at h
        simp only [Except.ok.injEq] at h
        rw [← h]
        simp [ih bs hrest]

theorem mapExcept_ok_zip {α β : Type} (f : α → Except PyErr β) :
    ∀ (l : List α) (l' : List β), mapExcept f l = .ok l' →
      ∀ p ∈ l.zip l', f p.1 = .ok p.2 := by
  intro l
  induction l with
  | nil => intro l' _ p hp; simp at hp
  | cons a as ih =>
    intro l' h p hp
    simp only [mapExcept] at h
    cases hfa : f a with
    | error e => rw [hfa] at h; exact absurd h (by simp)
    | ok b =>
      rw [hfa] at h
      cases hrest : mapExcept f as with
      | error e => rw [hrest] at h; exact absurd h (by simp)
      | ok bs =>
        rw [hrest] at h
        simp only [Except.ok.injEq] at h
        rw [← h] at hp
        rcases List.mem_cons.mp hp with h' | h'
        · rw [h']; exact hfa
        · exact ih bs hrest p h'

theorem mapExcept_ok_pair {α β : Type} (f : α → Except PyErr β) :
    ∀ (l : List α) (l' : List β), mapExcept f l = .ok l' →
      ∀ a ∈ l, ∀ b, f a = .ok b → (a, b) ∈ l.zip l' := by
  intro l
  induction l with
  | nil => intro l' _ a ha; simp at ha
  | cons x xs ih =>
    intro l' h a ha b hb
    simp only [mapExcept] at h
    cases hfx : f x with
    | error e => rw [hfx] at h; exact absurd h (by simp)
    | ok y =>
      rw [hfx] at h
      cases hrest : mapExcept f xs with
      | error e => rw [hrest] at h; exact absurd h (by simp)
      | ok ys =>
        rw [hrest] at h
        simp only [Except.ok.injEq] at h
        rw [← h]
        rcases List.mem_cons.mp ha with h' | h'
        · rw [h'] at hb
          rw [hfx] at hb
          have hyb : y = b := (Except.ok.injEq _ _).mp hb
          rw [List.zip_cons_cons, h', ← hyb]
          exact List.mem_cons_self _ _
        · exact List.mem_cons.mpr (Or.inr (ih ys hrest a h' b hb))

/-! ### Trace shapes of the fetchers -/

theorem wb_trace (c i : String) (g : Bool) (resp : WBResp) :
    (get_worldbank_data c i g resp).2 =
      [Effect.httpGet .worldbank (wbUrl c i) 10] := by
  cases resp with
  | error e => rfl
  | ok res =>
    unfold get_worldbank_data
    dsimp only
    repeat' split
    all_goals rfl

theorem eod_trace (t k : String) (resp : Except PyErr (List EodRow)) :
    (get_eodhd_bond t k resp).2 = [Effect.httpGet .eodhd (eodUrl t k) 10] := by
  cases resp with
  | error e => rfl
  | ok res =>
    unfold get_eodhd_bond
    dsimp only
    repeat' split
    all_goals rfl

theorem yf_trace (t p : String) (resp : YfResp) :
    (get_yfinance_data t p resp).2 = [Effect.yfHistory t] := by
  cases resp with
  | error e => rfl
  | ok hist =>
    unfold get_yfinance_data
    dsimp only
    repeat' split
    all_goals rfl

theorem metal_trace (s f : String) (k : Option String)
    (mr : Except PyErr MetalResp) (yr : YfResp) :
    (get_metal_price s f k mr yr).2 = [Effect.yfHistory f] ∨
    (get_metal_price s f k mr yr).2 =
      [Effect.httpGet .metalprice (metalUrl k s) 10] ∨
    (get_metal_price s f k mr yr).2 =
      [Effect.httpGet .metalprice (metalUrl k s) 10, Effect.yfHistory f] := by
  unfold get_metal_price
  dsimp only
  split
  · cases mr with
    | error e => right; right; simp [yf_trace]
    | ok res =>
      dsimp only
      repeat' split
      · right; right; simp [yf_trace]
      · right; right; simp [yf_trace]
      · right; right; simp [yf_trace]
      · right; left; rfl
  · left; exact yf_trace f "$" yr

theorem extract_trace (u : String) (resp : Except PyErr PdfDoc) :
    (extract_cpi_from_pdf u resp).2 = [Effect.httpGet .mospiPdf u 20] := by
  cases resp with
  | error e => rfl
  | ok pages =>
    unfold extract_cpi_from_pdf
    dsimp only
    repeat' split
    all_goals rfl

theorem mospi_trace (htmlResp : Except PyErr String)
    (pdfNet : String → Except PyErr PdfDoc) :
    (get_mospi_cpi_latest htmlResp pdfNet).2 =
      [Effect.httpGet .mospiIndex mospiPageUrl 10] ∨
    ∃ u, (get_mospi_cpi_latest htmlResp pdfNet).2 =
      [Effect.httpGet .mospiIndex mospiPageUrl 10,
       Effect.httpGet .mospiPdf u 20] := by
  cases htmlResp with
  | error e => left; rfl
  | ok html =>
    unfold get_mospi_cpi_latest
    dsimp only
    repeat' split
    · left; rfl
    · left; rfl
    · left; rfl
    · right
      rw [extract_trace]
      exact ⟨_, rfl⟩

theorem brent_trace (yr : YfResp) (te : Except PyErr String) :
    (get_brent_crude yr te).2 = [Effect.yfHistory "BZ=F"] ∨
    (get_brent_crude yr te).2 =
      [Effect.yfHistory "BZ=F", Effect.httpGet .tradingEconomics teUrl 10] := by
  unfold get_brent_crude
  dsimp only
  split
  · left; exact yf_trace _ _ yr
  · cases te with
    | error e => right; simp [yf_trace]
    | ok html =>
      dsimp only
      repeat' split
      all_goals right
      all_goals simp [yf_trace]

/-! ### Pointwise facts about fetcher effects -/

/-- What holds of every effect a fetcher emits: it is not a file write,
and if it is a direct HTTP request its timeout is 20 seconds for the PDF
download and 10 seconds otherwise. -/
def fetchEffOk (e : Effect) : Bool :=
  match e with
  | .httpGet ep _ t => if ep = .mospiPdf then t == 20 else t == 10
  | .yfHistory _ => true
  | .writeFile _ _ _ => false

theorem wb_eff_ok (c i : String) (g : Bool) (resp : WBResp) :
    ∀ e ∈ (get_worldbank_data c i g resp).2, fetchEffOk e = true := by
  rw [wb_trace]
  intro e he
  rw [List.mem_singleton] at he
  rw [he]
  rfl

theorem eod_eff_ok (t k : String) (resp : Except PyErr (List EodRow)) :
    ∀ e ∈ (get_eodhd_bond t k resp).2, fetchEffOk e = true := by
  rw [eod_trace]
  intro e he
  rw [List.mem_singleton] at he
  rw [he]
  rfl

theorem yf_eff_ok (t p : String) (resp : YfResp) :
    ∀ e ∈ (get_yfinance_data t p resp).2, fetchEffOk e = true := by
  rw [yf_trace]
  intro e he
  rw [List.mem_singleton] at he
  rw [he]
  rfl

theorem metal_eff_ok (s f : String) (k : Option String)
    (mr : Except PyErr MetalResp) (yr : YfResp) :
    ∀ e ∈ (get_metal_price s f k mr yr).2, fetchEffOk e = true := by
  rcases metal_trace s f k mr yr with h | h | h <;> rw [h] <;>
    intro e he <;> simp only [List.mem_singleton, List.mem_cons,
      List.not_mem_nil, or_false] at he
  · rw [he]; rfl
  · rw [he]; rfl
  · rcases he with he | he <;> rw [he] <;> rfl

theorem mospi_eff_ok (h : Except PyErr String)
    (net : String → Except PyErr PdfDoc) :
    ∀ e ∈ (get_mospi_cpi_latest h net).2, fetchEffOk e = true := by
  rcases mospi_trace h net with hs | ⟨u, hs⟩ <;> rw [hs] <;>
    intro e he <;> simp only [List.mem_singleton, List.mem_cons,
      List.not_mem_nil, or_false] at he
  · rw [he]; rfl
  · rcases he with he | he <;> rw [he] <;> rfl

theorem brent_eff_ok (yr : YfResp) (te : Except PyErr String) :
    ∀ e ∈ (get_brent_crude yr te).2, fetchEffOk e = true := by
  rcases brent_trace yr te with h | h <;> rw [h] <;>
    intro e he <;> simp only [List.mem_singleton, List.mem_cons,
      List.not_mem_nil, or_false] at he
  · rw [he]; rfl
  · rcases he with he | he <;> rw [he] <;> rfl

/-- Every effect of a run is either the single final file write or a
fetch effect satisfying `fetchEffOk`. -/
theorem main_eff (env : Env) :
    ∀ e ∈ (main env).2,
      e = Effect.writeFile "data.json" .w (main env).1 ∨
        fetchEffOk e = true := by
  intro e he
  simp only [main, List.mem_append, List.mem_singleton] at he
  rcases he with
    ((((((((((((((((h | h) | h) | h) | h) | h) | h) | h) | h) | h) | h) |
      h) | h) | h) | h) | h) | h) | h
  · exact Or.inr (wb_eff_ok _ _ _ _ e h)
  · exact Or.inr (wb_eff_ok _ _ _ _ e h)
  · exact Or.inr (wb_eff_ok _ _ _ _ e h)
  · exact Or.inr (mospi_eff_ok _ _ e h)
  · exact Or.inr (eod_eff_ok _ _ _ e h)
  · exact Or.inr (yf_eff_ok _ _ _ e h)
  · exact Or.inr (wb_eff_ok _ _ _ _ e h)
  · exact Or.inr (wb_eff_ok _ _ _ _ e h)
  · exact Or.inr (eod_eff_ok _ _ _ e h)
  · exact Or.inr (yf_eff_ok _ _ _ e h)
  · exact Or.inr (wb_eff_ok _ _ _ _ e h)
  · exact Or.inr (wb_eff_ok _ _ _ _ e h)
  · exact Or.inr (eod_eff_ok _ _ _ e h)
  · exact Or.inr (yf_eff_ok _ _ _ e h)
  · exact Or.inr (metal_eff_ok _ _ _ _ _ e h)
  · exact Or.inr (metal_eff_ok _ _ _ _ _ e h)
  · exact Or.inr (brent_eff_ok _ _ e h)
  · exact Or.inl h

/-! ### Output shape -/

/-- A `{metric, value, date}` record whose three values are strings. -/
def isStrRecord : Json → Bool
  | .obj [("metric", .str _), ("value", .str _), ("date", .str _)] => true
  | _ => false

/-- A list of string records. -/
def isSection : Json → Bool
  | .arr rows => rows.all isStrRecord
  | _ => false

/-- The two-level output structure: a `last_updated` string plus the four
named sections, each a list of `{metric, value, date}` string records. -/
def isDashboardShape : Json → Bool
  | .obj [("last_updated", .str _), ("india", i), ("us", u),
          ("china", c), ("commodities", co)] =>
    isSection i && isSection u && isSection c && isSection co
  | _ => false

theorem effOk_not_write {e : Effect} (h : fetchEffOk e = true) :
    e.isWrite = false := by
  cases e <;> simp_all [fetchEffOk, Effect.isWrite]

theorem no_write_filter {l : List Effect}
    (h : ∀ e ∈ l, fetchEffOk e = true) :
    l.filter Effect.isWrite = [] := by
  rw [List.filter_eq_nil_iff]
  intro e he
  rw [effOk_not_write (h e he)]
  simp

/-- C3: every fetcher returns (by the type `FetchResult`) a dictionary of
exactly the string keys `value` and `date`, and for every run the merged
dictionary is the two-level structure of string records with a
`last_updated` string, hence serializable by construction as a `Json`
value. -/
theorem C3_output_shape (env : Env) :
    isDashboardShape (main env).1 = true := rfl

/-- C4: every run serializes the merged dictionary exactly once, in a
single write to the fixed path `data.json` opened in mode `"w"` (which
truncates, overwriting previous contents); no other write effect occurs
in the trace. -/
theorem C4_single_write (env : Env) :
    (main env).2.filter Effect.isWrite =
      [Effect.writeFile "data.json" .w (main env).1] := by
  have h1 := no_write_filter (wb_eff_ok "IN" "NY.GDP.MKTP.CD" true
    (env.wb "IN" "NY.GDP.MKTP.CD"))
  have h2 := no_write_filter (wb_eff_ok "IN" "GC.DOD.TOTL.GD.ZS" false
    (env.wb "IN" "GC.DOD.TOTL.GD.ZS"))
  have h3 := no_write_filter (wb_eff_ok "IN" "GC.NLD.TOTL.GD.ZS" false
    (env.wb "IN" "GC.NLD.TOTL.GD.ZS"))
  have h4 := no_write_filter (mospi_eff_ok env.mospiHtml env.pdfNet)
  have h5 := no_write_filter (eod_eff_ok "IN10Y" (EODHD_API_KEY env)
    (env.eod "IN10Y"))
  have h6 := no_write_filter (yf_eff_ok "^NSEI" "" (env.yf "^NSEI"))
  have h7 := no_write_filter (wb_eff_ok "US" "NY.GDP.MKTP.CD" true
    (env.wb "US" "NY.GDP.MKTP.CD"))
  have h8 := no_write_filter (wb_eff_ok "US" "GC.DOD.TOTL.GD.ZS" false
    (env.wb "US" "GC.DOD.TOTL.GD.ZS"))
  have h9 := no_write_filter (eod_eff_ok "US10Y" (EODHD_API_KEY env)
    (env.eod "US10Y"))
  have h10 := no_write_filter (yf_eff_ok "^GSPC" "" (env.yf "^GSPC"))
  have h11 := no_write_filter (wb_eff_ok "CN" "NY.GDP.MKTP.CD" true
    (env.wb "CN" "NY.GDP.MKTP.CD"))
  have h12 := no_write_filter (wb_eff_ok "CN" "GC.DOD.TOTL.GD.ZS" false
    (env.wb "CN" "GC.DOD.TOTL.GD.ZS"))
  have h13 := no_write_filter (eod_eff_ok "CN10Y" (EODHD_API_KEY env)
    (env.eod "CN10Y"))
  have h14 := no_write_filter (yf_eff_ok "000001.SS" "" (env.yf "000001.SS"))
  have h15 := no_write_filter (metal_eff_ok "XAU" "GC=F" env.metalpriceKey
    (env.metal "XAU") (env.yf "GC=F"))
  have h16 := no_write_filter (metal_eff_ok "XAG" "SI=F" env.metalpriceKey
    (env.metal "XAG") (env.yf "SI=F"))
  have h17 := no_write_filter (brent_eff_ok (env.yf "BZ=F") env.teHtml)
  simp only [main, List.filter_append, h1, h2, h3, h4, h5, h6, h7, h8, h9,
    h10, h11, h12, h13, h14, h15, h16, h17, List.nil_append,
    List.filter_cons, List.filter_nil]
  rfl

/-- C10: the effect trace of a run is exactly the concatenation, in
source order, of the traces of the seventeen fetch calls followed by the
single file write; in particular every fetch effect precedes the write
and no two fetch traces interleave. The embedded program is a
straight-line sequential composition, as the source (which imports no
threading or async machinery) is. -/
theorem C10_sequential (env : Env) :
    (main env).2 =
      (get_worldbank_data "IN" "NY.GDP.MKTP.CD" true
        (env.wb "IN" "NY.GDP.MKTP.CD")).2 ++
      (get_worldbank_data "IN" "GC.DOD.TOTL.GD.ZS" false
        (env.wb "IN" "GC.DOD.TOTL.GD.ZS")).2 ++
      (get_worldbank_data "IN" "GC.NLD.TOTL.GD.ZS" false
        (env.wb "IN" "GC.NLD.TOTL.GD.ZS")).2 ++
      (get_mospi_cpi_latest env.mospiHtml env.pdfNet).2 ++
      (get_eodhd_bond "IN10Y" (EODHD_API_KEY env) (env.eod "IN10Y")).2 ++
      (get_yfinance_data "^NSEI" "" (env.yf "^NSEI")).2 ++
      (get_worldbank_data "US" "NY.GDP.MKTP.CD" true
        (env.wb "US" "NY.GDP.MKTP.CD")).2 ++
      (get_worldbank_data "US" "GC.DOD.TOTL.GD.ZS" false
        (env.wb "US" "GC.DOD.TOTL.GD.ZS")).2 ++
      (get_eodhd_bond "US10Y" (EODHD_API_KEY env) (env.eod "US10Y")).2 ++
      (get_yfinance_data "^GSPC" "" (env.yf "^GSPC")).2 ++
      (get_worldbank_data "CN" "NY.GDP.MKTP.CD" true
        (env.wb "CN" "NY.GDP.MKTP.CD")).2 ++
      (get_worldbank_data "CN" "GC.DOD.TOTL.GD.ZS" false
        (env.wb "CN" "GC.DOD.TOTL.GD.ZS")).2 ++
      (get_eodhd_bond "CN10Y" (EODHD_API_KEY env) (env.eod "CN10Y")).2 ++
      (get_yfinance_data "000001.SS" "" (env.yf "000001.SS")).2 ++
      (get_metal_price "XAU" "GC=F" env.metalpriceKey (env.metal "XAU")
        (env.yf "GC=F")).2 ++
      (get_metal_price "XAG" "SI=F" env.metalpriceKey (env.metal "XAG")
        (env.yf "SI=F")).2 ++
      (get_brent_crude (env.yf "BZ=F") env.teHtml).2 ++
      [Effect.writeFile "data.json" .w (main env).1] ∧
    ∃ pre, (main env).2 = pre ++
        [Effect.writeFile "data.json" .w (main env).1] ∧
      ∀ e ∈ pre, e.isWrite = false := by
  constructor
  · rfl
  · refine ⟨_, rfl, ?_⟩
    intro e he
    simp only [List.mem_append] at he
    rcases he with
      (((((((((((((((h | h) | h) | h) | h) | h) | h) | h) | h) | h) | h) |
        h) | h) | h) | h) | h) | h
    · exact effOk_not_write (wb_eff_ok _ _ _ _ e h)
    · exact effOk_not_write (wb_eff_ok _ _ _ _ e h)
    · exact effOk_not_write (wb_eff_ok _ _ _ _ e h)
    · exact effOk_not_write (mospi_eff_ok _ _ e h)
    · exact effOk_not_write (eod_eff_ok _ _ _ e h)
    · exact effOk_not_write (yf_eff_ok _ _ _ e h)
    · exact effOk_not_write (wb_eff_ok _ _ _ _ e h)
    · exact effOk_not_write (wb_eff_ok _ _ _ _ e h)
    · exact effOk_not_write (eod_eff_ok _ _ _ e h)
    · exact effOk_not_write (yf_eff_ok _ _ _ e h)
    · exact effOk_not_write (wb_eff_ok _ _ _ _ e h)
    · exact effOk_not_write (wb_eff_ok _ _ _ _ e h)
    · exact effOk_not_write (eod_eff_ok _ _ _ e h)
    · exact effOk_not_write (yf_eff_ok _ _ _ e h)
    · exact effOk_not_write (metal_eff_ok _ _ _ _ _ e h)
    · exact effOk_not_write (metal_eff_ok _ _ _ _ _ e h)
    · exact effOk_not_write (brent_eff_ok _ _ e h)

/-- C8: every HTTP request in the trace of a run carries an explicit
timeout, 10 seconds everywhere except the PDF download of
`_extract_cpi_from_pdf`, which uses 20 seconds. (The yfinance history
downloads are library calls, not `requests.get` calls of this program,
and carry no explicit timeout.) -/
theorem C8_timeouts (env : Env) :
    ∀ e ∈ (main env).2, ∀ ep u t, e = Effect.httpGet ep u t →
      t = if ep = Endpoint.mospiPdf then 20 else 10 := by
  intro e he ep u t het
  rcases main_eff env e he with h | h
  · rw [het] at h
    exact absurd h (by simp)
  · rw [het] at h
    dsimp only [fetchEffOk] at h
    by_cases hep : ep = Endpoint.mospiPdf
    · rw [if_pos hep] at h
      rw [if_pos hep]
      simpa using h
    · rw [if_neg hep] at h
      rw [if_neg hep]
      simpa using h

/-- An environment in which every external service is down. -/
def envDown : Env where
  now := ⟨2026, 1, 1, 10, 30⟩
  metalpriceKey := none
  eodhdKeyEnv := none
  wb := fun _ _ => .error "down"
  eod := fun _ => .error "down"
  yf := fun _ => .error "down"
  metal := fun _ => .error "down"
  mospiHtml := .error "down"
  pdfNet := fun _ => .error "down"
  teHtml := .error "down"

theorem C8_witness :
    (10 : Nat) = if Endpoint.worldbank = Endpoint.mospiPdf then 20 else 10 :=
  C8_timeouts envDown
    (Effect.httpGet .worldbank (wbUrl "IN" "NY.GDP.MKTP.CD") 10)
    (by
      simp only [main]
      repeat' apply List.mem_append_left
      rw [wb_trace]
      exact List.mem_singleton.mpr rfl)
    .worldbank (wbUrl "IN" "NY.GDP.MKTP.CD") 10 rfl

/-! ### Claim C1 -/

/-- C1 counterexample: with the metalpriceapi request raising and the
yfinance fallback healthy, `get_metal_price` does not degrade to the
placeholder, contradicting the claim that a raised exception inside a
fetch always degrades the operation to `{"value": "N/A", "date": "N/A"}`. -/
theorem C1_cex :
    (get_metal_price "XAU" "GC=F" (some "k") (.error "boom")
      (.ok [⟨2650, ⟨2025, 1, 2⟩⟩])).1 ≠ placeholder := by decide

/-- C1 (amended): no fetcher propagates an exception; each degrades to
its fallback result, which is the placeholder for `get_worldbank_data`,
`get_eodhd_bond`, `get_yfinance_data` and `get_mospi_cpi_latest`, while
`get_metal_price` degrades to `get_yfinance_data(fallback_ticker, "$")`
and `get_brent_crude` to the Trading Economics parse, reaching the
placeholder when every step fails; and no fetcher ever repeats a request
to the same endpoint (no retries). Non-propagation is embedded in the
fetchers being total functions into `FetchResult`. -/
theorem C1_no_propagation_no_retry :
    (∀ c i g e, (get_worldbank_data c i g (.error e)).1 = placeholder) ∧
    (∀ t k e, (get_eodhd_bond t k (.error e)).1 = placeholder) ∧
    (∀ t p e, (get_yfinance_data t p (.error e)).1 = placeholder) ∧
    (∀ e net, (get_mospi_cpi_latest (.error e) net).1 = placeholder) ∧
    (∀ s f k me yresp, (get_metal_price s f k (.error me) yresp).1 =
      (get_yfinance_data f "$" yresp).1) ∧
    (∀ s f k me ye, (get_metal_price s f k (.error me) (.error ye)).1 =
      placeholder) ∧
    (∀ ye te, (get_brent_crude (.error ye) (.error te)).1 = placeholder) ∧
    (∀ c i g resp,
      ((get_worldbank_data c i g resp).2.filterMap Effect.tag).Nodup) ∧
    (∀ t k resp,
      ((get_eodhd_bond t k resp).2.filterMap Effect.tag).Nodup) ∧
    (∀ t p resp,
      ((get_yfinance_data t p resp).2.filterMap Effect.tag).Nodup) ∧
    (∀ h net,
      ((get_mospi_cpi_latest h net).2.filterMap Effect.tag).Nodup) ∧
    (∀ s f k mr yr,
      ((get_metal_price s f k mr yr).2.filterMap Effect.tag).Nodup) ∧
    (∀ yr te, ((get_brent_crude yr te).2.filterMap Effect.tag).Nodup) := by
  refine ⟨?_, ?_, ?_, ?_, ?_, ?_, ?_, ?_, ?_, ?_, ?_, ?_, ?_⟩
  · intro c i g e; rfl
  · intro t k e; rfl
  · intro t p e; rfl
  · intro e net; rfl
  · intro s f k me yresp
    unfold get_metal_price
    dsimp only
    split
    · rfl
    · rfl
  · intro s f k me ye
    unfold get_metal_price
    dsimp only
    split
    · rfl
    · rfl
  · intro ye te; rfl
  · intro c i g resp; rw [wb_trace]; simp [Effect.tag]
  · intro t k resp; rw [eod_trace]; simp [Effect.tag]
  · intro t p resp; rw [yf_trace]; simp [Effect.tag]
  · intro h net
    rcases mospi_trace h net with hs | ⟨u, hs⟩ <;> rw [hs] <;>
      simp [Effect.tag]
  · intro s f k mr yr
    rcases metal_trace s f k mr yr with hs | hs | hs <;> rw [hs] <;>
      simp [Effect.tag]
  · intro yr te
    rcases brent_trace yr te with hs | hs <;> rw [hs] <;> simp [Effect.tag]

/-! ### Claim C6 -/

/-- C6 counterexample: with the key set, a well-formed response whose
rate is valid but whose timestamp lies outside the years
`datetime.fromtimestamp` accepts (here `10^12`, about year 33658), the
`strftime` line raises before the division and the program degrades to
the yfinance fallback — not the formatted metal price the claim asserts
for this case. -/
theorem C6_cex :
    (get_metal_price "XAU" "GC=F" (some "k")
        (.ok ⟨[("XAU", 1)], 1000000000000⟩) (.error "y")).1 =
      (get_yfinance_data "GC=F" "$" (.error "y")).1 ∧
    (get_metal_price "XAU" "GC=F" (some "k")
        (.ok ⟨[("XAU", 1)], 1000000000000⟩) (.error "y")).1.value ≠
      "$" ++ fmt2 (1 / (1 : Rat)) := by
  constructor
  · decide
  · decide

/-- C6 (amended): `get_metal_price` uses the metalpriceapi only when the
key is truthy; a falsy key skips the request entirely (result and trace
equal the yfinance fallback call); a raised request, a missing rate
entry, a timestamp outside the range `datetime.fromtimestamp` accepts,
or a zero rate (division failure) fall back to
`get_yfinance_data(fallback_ticker, "$")`; otherwise the result is the
reciprocal rate formatted to two decimals with a `$` sign and the
timestamp formatted `YYYY-MM-DD`. -/
theorem C6_metal_price :
    (∀ s f k mr yr, keyTruthy k = false →
      get_metal_price s f k mr yr = get_yfinance_data f "$" yr) ∧
    (∀ s f k e yr, keyTruthy k = true →
      (get_metal_price s f k (.error e) yr).1 =
        (get_yfinance_data f "$" yr).1) ∧
    (∀ s f k res yr, keyTruthy k = true →
      res.rates.lookup s = none →
      (get_metal_price s f k (.ok res) yr).1 =
        (get_yfinance_data f "$" yr).1) ∧
    (∀ s f k res yr rate e, keyTruthy k = true →
      res.rates.lookup s = some rate →
      dateFromTimestamp res.timestamp = .error e →
      (get_metal_price s f k (.ok res) yr).1 =
        (get_yfinance_data f "$" yr).1) ∧
    (∀ s f k res yr, keyTruthy k = true →
      res.rates.lookup s = some 0 →
      (get_metal_price s f k (.ok res) yr).1 =
        (get_yfinance_data f "$" yr).1) ∧
    (∀ s f k res yr rate dt, keyTruthy k = true →
      res.rates.lookup s = some rate →
      dateFromTimestamp res.timestamp = .ok dt → rate ≠ 0 →
      (get_metal_price s f k (.ok res) yr).1 =
        ⟨"$" ++ fmt2 (1 / rate), dt.ymd⟩) := by
  refine ⟨?_, ?_, ?_, ?_, ?_, ?_⟩
  · intro s f k mr yr h
    unfold get_metal_price
    rw [if_neg (by simp [h])]
  · intro s f k e yr h
    unfold get_metal_price
    rw [if_pos (by simp [h])]
  · intro s f k res yr h hl
    unfold get_metal_price
    rw [if_pos (by simp [h])]
    dsimp only
    rw [hl]
  · intro s f k res yr rate e h hl hdt
    unfold get_metal_price
    rw [if_pos (by simp [h])]
    dsimp only
    rw [hl]
    dsimp only
    rw [hdt]
  · intro s f k res yr h hl
    unfold get_metal_price
    rw [if_pos (by simp [h])]
    dsimp only
    rw [hl]
    dsimp only
    cases hdt : dateFromTimestamp res.timestamp with
    | error e2 => rfl
    | ok dt => dsimp only; rw [if_pos rfl]
  · intro s f k res yr rate dt h hl hdt hr
    unfold get_metal_price
    rw [if_pos (by simp [h])]
    dsimp only
    rw [hl]
    dsimp only
    rw [hdt]
    dsimp only
    rw [if_neg hr]

theorem C6_witness :
    get_metal_price "XAU" "GC=F" none (.error "m") (.error "y") =
      get_yfinance_data "GC=F" "$" (.error "y") :=
  C6_metal_price.1 "XAU" "GC=F" none (.error "m") (.error "y") rfl

/-! ### Claim C7 -/

/-- C7: `get_brent_crude` returns the Yahoo Finance result for `BZ=F`
whenever its value is not `"N/A"` (in particular never touching Trading
Economics: the traces are equal too); only otherwise does it attempt the
Trading Economics parse, and it returns the placeholder exactly when that
request raises, the pattern has no match, or the matched date fails
`strptime`. -/
theorem C7_brent_fallback :
    (∀ yr te, (get_yfinance_data "BZ=F" "$" yr).1.value ≠ "N/A" →
      get_brent_crude yr te = get_yfinance_data "BZ=F" "$" yr) ∧
    (∀ yr e, (get_yfinance_data "BZ=F" "$" yr).1.value = "N/A" →
      (get_brent_crude yr (.error e)).1 = placeholder) ∧
    (∀ yr html, (get_yfinance_data "BZ=F" "$" yr).1.value = "N/A" →
      brentTE html.data = none →
      (get_brent_crude yr (.ok html)).1 = placeholder) ∧
    (∀ yr html r, (get_yfinance_data "BZ=F" "$" yr).1.value = "N/A" →
      brentTE html.data = some r →
      (strptimeBdY r.2.1 r.2.2.1 r.2.2.2).isOk = false →
      (get_brent_crude yr (.ok html)).1 = placeholder) ∧
    (∀ yr html r dt, (get_yfinance_data "BZ=F" "$" yr).1.value = "N/A" →
      brentTE html.data = some r →
      strptimeBdY r.2.1 r.2.2.1 r.2.2.2 = .ok dt →
      (get_brent_crude yr (.ok html)).1 = ⟨"$" ++ fmt2 r.1, dt.ymd⟩) := by
  refine ⟨?_, ?_, ?_, ?_, ?_⟩
  · intro yr te h
    unfold get_brent_crude
    rw [if_pos h]
  · intro yr e h
    unfold get_brent_crude
    rw [if_neg (by simp [h])]
  · intro yr html h hb
    unfold get_brent_crude
    rw [if_neg (by simp [h])]
    dsimp only
    rw [hb]
  · intro yr html r h hb hs
    unfold get_brent_crude
    rw [if_neg (by simp [h])]
    dsimp only
    rw [hb]
    cases hst : strptimeBdY r.2.1 r.2.2.1 r.2.2.2 with
    | error e2 => dsimp only; rw [hst]
    | ok dt => rw [hst] at hs; exact absurd hs (by simp [Except.isOk, Except.toBool])
  · intro yr html r dt h hb hs
    unfold get_brent_crude
    rw [if_neg (by simp [h])]
    dsimp only
    rw [hb]
    dsimp only
    rw [hs]

theorem C7_witness :
    get_brent_crude (.ok [⟨(6532 : Rat)/100, ⟨2025, 10, 10⟩⟩]) (.error "x") =
      get_yfinance_data "BZ=F" "$" (.ok [⟨(6532 : Rat)/100, ⟨2025, 10, 10⟩⟩]) :=
  C7_brent_fallback.1 (.ok [⟨(6532 : Rat)/100, ⟨2025, 10, 10⟩⟩]) (.error "x")
    (by decide)

/-! ### Claim C9 -/

theorem monthAbbrevs_bounds : ∀ nm ∈ monthAbbrevs, 1 ≤ nm.2 ∧ nm.2 ≤ 12 := by
  decide

theorem digitVal_le {c : Char} (h : c.isDigit = true) : digitVal c ≤ 9 := by
  simp only [Char.isDigit, Bool.and_eq_true, decide_eq_true_eq] at h
  have h3 : c.val.toNat ≤ 57 := UInt32.toNat_le_of_le (by decide) h.2
  unfold digitVal Char.toNat
  omega

theorem tryMonthYY_bounds {cs : List Char} {r : Nat × Nat}
    (h : tryMonthYY cs = some r) : (1 ≤ r.1 ∧ r.1 ≤ 12) ∧ r.2 ≤ 99 := by
  obtain ⟨nm, hmem, hf⟩ := List.exists_of_findSome?_eq_some h
  have hb := monthAbbrevs_bounds nm hmem
  repeat' split at hf
  all_goals cases hf
  rename_i hdig
  rw [Bool.and_eq_true] at hdig
  have h1 := digitVal_le hdig.1
  have h2 := digitVal_le hdig.2
  exact ⟨hb, by dsimp only; omega⟩

theorem p1TwoDig_bounds {cs : List Char} {r : Nat × Nat × Nat}
    (h : p1TwoDig cs = some r) :
    (1 ≤ r.2.1 ∧ r.2.1 ≤ 12) ∧ r.2.2 ≤ 99 := by
  unfold p1TwoDig at h
  repeat' split at h
  · rw [Option.map_eq_some'] at h
    obtain ⟨my, hmy, hv⟩ := h
    rw [← hv]
    exact tryMonthYY_bounds hmy
  · exact absurd h (by simp)
  · exact absurd h (by simp)

theorem p1OneDig_bounds {cs : List Char} {r : Nat × Nat × Nat}
    (h : p1OneDig cs = some r) :
    (1 ≤ r.2.1 ∧ r.2.1 ≤ 12) ∧ r.2.2 ≤ 99 := by
  unfold p1OneDig at h
  repeat' split at h
  · rw [Option.map_eq_some'] at h
    obtain ⟨my, hmy, hv⟩ := h
    rw [← hv]
    exact tryMonthYY_bounds hmy
  · exact absurd h (by simp)
  · exact absurd h (by simp)

theorem p1At_bounds {cs : List Char} {r : Nat × Nat × Nat}
    (h : p1At cs = some r) :
    (1 ≤ r.2.1 ∧ r.2.1 ≤ 12) ∧ r.2.2 ≤ 99 := by
  unfold p1At at h
  cases ha : p1TwoDig cs with
  | some v =>
    rw [ha, Option.some_orElse] at h
    cases h
    exact p1TwoDig_bounds ha
  | none =>
    rw [ha, Option.none_orElse] at h
    exact p1OneDig_bounds h

theorem searchP1_bounds : ∀ {cs : List Char} {r : Nat × Nat × Nat},
    searchP1 cs = some r → (1 ≤ r.2.1 ∧ r.2.1 ≤ 12) ∧ r.2.2 ≤ 99 := by
  intro cs
  induction cs with
  | nil => intro r h; exact absurd h (by simp [searchP1])
  | cons c cs ih =>
    intro r h
    rw [searchP1] at h
    cases ha : p1At (c :: cs) with
    | some v =>
      rw [ha, Option.some_orElse] at h
      cases h
      exact p1At_bounds ha
    | none =>
      rw [ha, Option.none_orElse] at h
      exact ih h

theorem searchP2_bounds : ∀ {cs : List Char} {r : Nat × Nat},
    searchP2 cs = some r → (1 ≤ r.1 ∧ r.1 ≤ 12) ∧ r.2 ≤ 99 := by
  intro cs
  induction cs with
  | nil => intro r h; exact absurd h (by simp [searchP2])
  | cons c cs ih =>
    intro r h
    rw [searchP2] at h
    cases ha : tryMonthYY (c :: cs) with
    | some v =>
      rw [ha, Option.some_orElse] at h
      cases h
      exact tryMonthYY_bounds ha
    | none =>
      rw [ha, Option.none_orElse] at h
      exact ih h

theorem daysInMonth_pos (y m : Nat) : 1 ≤ daysInMonth y m := by
  unfold daysInMonth
  repeat' split
  all_goals omega

/-- C9 counterexample: on `"32Jan25"` (and `"0Jan25"`) the day regex
matches with a day outside the calendar range, and the unguarded
`datetime` constructor raises `ValueError` instead of returning
`datetime.min` as the claim states. -/
theorem C9_cex :
    parse_date_from_url "32Jan25" =
      .error "ValueError: day is out of range for month" ∧
    parse_date_from_url "0Jan25" =
      .error "ValueError: day is out of range for month" := by
  exact ⟨rfl, rfl⟩

/-- C9 (amended): `_parse_date_from_url` returns a day-resolved date when
the day-month-year pattern matches with a day valid for the month, raises
`ValueError` when that pattern matches with a day outside the valid
range, returns the first of the month when only the month-year pattern
matches (always valid), and returns `datetime.min` when neither pattern
matches. -/
theorem C9_parse_date (url : String) :
    (∀ d m yy, searchP1 url.data = some (d, m, yy) →
      1 ≤ d → d ≤ daysInMonth (2000 + yy) m →
      parse_date_from_url url = .ok ⟨2000 + yy, m, d⟩) ∧
    (∀ d m yy, searchP1 url.data = some (d, m, yy) →
      (d = 0 ∨ daysInMonth (2000 + yy) m < d) →
      parse_date_from_url url =
        .error "ValueError: day is out of range for month") ∧
    (∀ m yy, searchP1 url.data = none → searchP2 url.data = some (m, yy) →
      parse_date_from_url url = .ok ⟨2000 + yy, m, 1⟩) ∧
    (searchP1 url.data = none → searchP2 url.data = none →
      parse_date_from_url url = .ok datetimeMin) := by
  refine ⟨?_, ?_, ?_, ?_⟩
  · intro d m yy h h1 h2
    have hm := searchP1_bounds h
    have hyy : yy ≤ 99 := hm.2
    have hm1 : 1 ≤ m := hm.1.1
    have hm2 : m ≤ 12 := hm.1.2
    unfold parse_date_from_url
    rw [h]
    dsimp only
    unfold datetime_mk
    rw [if_pos (show 1 ≤ 2000 + yy ∧ 2000 + yy ≤ 9999 by omega)]
    rw [if_pos ⟨hm1, hm2, h1, h2⟩]
  · intro d m yy h hbad
    have hm := searchP1_bounds h
    have hyy : yy ≤ 99 := hm.2
    unfold parse_date_from_url
    rw [h]
    dsimp only
    unfold datetime_mk
    rw [if_pos (show 1 ≤ 2000 + yy ∧ 2000 + yy ≤ 9999 by omega)]
    rw [if_neg ?_]
    rintro ⟨_, _, h3, h4⟩
    omega
  · intro m yy h1 h2
    have hm := searchP2_bounds h2
    have hyy : yy ≤ 99 := hm.2
    have hm1 : 1 ≤ m := hm.1.1
    have hm2 : m ≤ 12 := hm.1.2
    have hd := daysInMonth_pos (2000 + yy) m
    unfold parse_date_from_url
    rw [h1]
    dsimp only
    rw [h2]
    dsimp only
    unfold datetime_mk
    rw [if_pos (show 1 ≤ 2000 + yy ∧ 2000 + yy ≤ 9999 by omega)]
    rw [if_pos ⟨hm1, hm2, Nat.le_refl 1, hd⟩]
  · intro h1 h2
    unfold parse_date_from_url
    rw [h1]
    dsimp only
    rw [h2]

theorem C9_witness :
    parse_date_from_url "CPI_Press_Release_12Jan25.pdf" =
      .ok ⟨2025, 1, 12⟩ :=
  (C9_parse_date "CPI_Press_Release_12Jan25.pdf").1 12 1 25
    (by decide) (by decide) (by decide)

/-! ### Claim C5 -/

/-- The text `_extract_cpi_from_pdf` scans: the first six page texts
(`None` rendered as the empty string) joined with newlines. -/
def pdfText (pages : PdfDoc) : String :=
  String.intercalate "\n" ((pages.take 6).map (·.getD ""))

/-- The value field the happy path of `_extract_cpi_from_pdf` computes:
the matched number formatted to two decimals with a percent sign, or
`"N/A"` when the inflation pattern has no match. -/
def cpiValue (pages : PdfDoc) : String :=
  match findCpiNum (pdfText pages).data with
  | some q => fmt2 q ++ "%"
  | none => "N/A"

/-- C5 counterexample: with a page matching the inflation pattern (at
5.48) but no month-year in the text, and a URL whose parsed day is out of
range (`32Jan25`), the fallback `_parse_date_from_url` raises inside the
`try` and the whole result degrades to the placeholder: the returned
value is `"N/A"` even though the regex matched, contradicting the
claim. -/
theorem C5_cex :
    (findCpiNum (pdfText [some "All India Inflation 5.48"]).data).isSome =
      true ∧
    (extract_cpi_from_pdf "x_32Jan25.pdf"
      (.ok [some "All India Inflation 5.48"])).1 = placeholder := by
  constructor
  · decide
  · decide

/-- C5 (amended): `_extract_cpi_from_pdf` reads at most the first six
pages; on the ok path the value is the matched number formatted to two
decimals with `%` (else `"N/A"`), and the date is the first
`MonthName year` in the text, else the URL date formatted `YYYY-MM-DD`
(`"N/A"` when that date is `datetime.min`) — except that when the
month-year fallback is reached and `_parse_date_from_url` raises
`ValueError`, the whole result (value included) degrades to the
placeholder. -/
theorem C5_extract_pdf (pdf_url : String) (pages : PdfDoc) :
    extract_cpi_from_pdf pdf_url (.ok pages) =
      extract_cpi_from_pdf pdf_url (.ok (pages.take 6)) ∧
    (∀ q, findCpiNum (pdfText pages).data = some q →
      cpiValue pages = fmt2 q ++ "%") ∧
    (findCpiNum (pdfText pages).data = none → cpiValue pages = "N/A") ∧
    (∀ mname y4, searchMonthYear (pdfText pages).data = some (mname, y4) →
      extract_cpi_from_pdf pdf_url (.ok pages) =
        (⟨cpiValue pages, mname ++ " " ++ y4⟩,
         [Effect.httpGet .mospiPdf pdf_url 20])) ∧
    (∀ dt, searchMonthYear (pdfText pages).data = none →
      parse_date_from_url pdf_url = .ok dt →
      extract_cpi_from_pdf pdf_url (.ok pages) =
        (⟨cpiValue pages, if dt ≠ datetimeMin then dt.ymd else "N/A"⟩,
         [Effect.httpGet .mospiPdf pdf_url 20])) ∧
    (∀ e, searchMonthYear (pdfText pages).data = none →
      parse_date_from_url pdf_url = .error e →
      extract_cpi_from_pdf pdf_url (.ok pages) =
        (placeholder, [Effect.httpGet .mospiPdf pdf_url 20])) := by
  refine ⟨?_, ?_, ?_, ?_, ?_, ?_⟩
  · simp only [extract_cpi_from_pdf, List.take_take, Nat.min_self]
  · intro q h
    unfold cpiValue
    rw [h]
  · intro h
    unfold cpiValue
    rw [h]
  · intro mname y4 h
    unfold pdfText at h
    unfold extract_cpi_from_pdf cpiValue pdfText
    dsimp only
    rw [h]
  · intro dt h hp
    unfold pdfText at h
    unfold extract_cpi_from_pdf cpiValue pdfText
    dsimp only
    rw [h]
    dsimp only
    rw [hp]
  · intro e h hp
    unfold pdfText at h
    unfold extract_cpi_from_pdf
    dsimp only
    rw [h]
    dsimp only
    rw [hp]

theorem C5_witness :
    extract_cpi_from_pdf "x.pdf"
      (.ok [some "All India Inflation 5.48 in March 2025"]) =
      (⟨cpiValue [some "All India Inflation 5.48 in March 2025"],
        "March" ++ " " ++ "2025"⟩,
       [Effect.httpGet .mospiPdf "x.pdf" 20]) :=
  (C5_extract_pdf "x.pdf" [some "All India Inflation 5.48 in March 2025"]
    ).2.2.2.1 "March" "2025" (by decide)

/-! ### Claim C2 -/

/-- C2: `get_mospi_cpi_latest` collects exactly the `.pdf` href targets
containing `CPI` (case-insensitively), normalized to absolute URLs; on an
empty list it returns the placeholder without further requests; on a
non-empty list (whose date keys all parse, as the claim presupposes by
applying `_parse_date_from_url` to every URL) it downloads and extracts
from a collected link whose parsed date is maximal. -/
theorem C2_mospi (html : String) (pdfNet : String → Except PyErr PdfDoc) :
    mospiLinks html = ((findPdfHrefs html).filter containsCPI).map normalize ∧
    (mospiLinks html = [] →
      get_mospi_cpi_latest (.ok html) pdfNet =
        (placeholder, [Effect.httpGet .mospiIndex mospiPageUrl 10])) ∧
    (∀ dates, mospiLinks html ≠ [] →
      mapExcept parse_date_from_url (mospiLinks html) = .ok dates →
      ∃ chosen dc, chosen ∈ mospiLinks html ∧
        parse_date_from_url chosen = .ok dc ∧
        (∀ l dl, l ∈ mospiLinks html → parse_date_from_url l = .ok dl →
          dl.ble dc = true) ∧
        get_mospi_cpi_latest (.ok html) pdfNet =
          ((extract_cpi_from_pdf chosen (pdfNet chosen)).1,
           Effect.httpGet .mospiIndex mospiPageUrl 10 ::
             (extract_cpi_from_pdf chosen (pdfNet chosen)).2)) := by
  refine ⟨rfl, ?_, ?_⟩
  · intro h
    simp [get_mospi_cpi_latest, h]
  · intro dates hne hmap
    cases hl : mospiLinks html with
    | nil => exact absurd hl hne
    | cons l0 ls =>
      cases hd : dates with
      | nil =>
        have hlen := mapExcept_ok_length parse_date_from_url _ _ hmap
        rw [hl, hd] at hlen
        simp at hlen
      | cons d0 ds =>
        rw [hl, hd] at hmap
        have hz : (l0 :: ls).zip (d0 :: ds) = (l0, d0) :: ls.zip ds := rfl
        have hmem : pyMaxGo (l0, d0) (ls.zip ds) ∈ (l0 :: ls).zip (d0 :: ds) := by
          rw [hz]; exact pyMaxGo_mem _ _
        have hpair := mapExcept_ok_zip parse_date_from_url _ _ hmap _ hmem
        refine ⟨(pyMaxGo (l0, d0) (ls.zip ds)).1,
          (pyMaxGo (l0, d0) (ls.zip ds)).2, ?_, hpair, ?_, ?_⟩
        · exact (List.of_mem_zip hmem).1
        · intro l dl hlmem hpl
          have hmemz := mapExcept_ok_pair parse_date_from_url _ _ hmap
            l hlmem dl hpl
          exact pyMaxGo_ge (l0, d0) (ls.zip ds) (l, dl)
            (by rw [← hz]; exact hmemz)
        · unfold get_mospi_cpi_latest
          dsimp only
          rw [hl]
          rw [if_neg (by simp)]
          rw [hmap]
          dsimp only
          rw [hz]

/-- A MoSPI index page with two dated CPI PDF links. -/
def mospiHtmlW : String :=
  "<a href=\"CPI_12Jan25.pdf\"></a><a href=\"CPI_05Mar25.pdf\"></a>"

/-- A PDF oracle with the download failing. -/
def pdfNetW : String → Except PyErr PdfDoc := fun _ => .error "pdf down"

theorem C2_witness :
    ∃ chosen dc, chosen ∈ mospiLinks mospiHtmlW ∧
      parse_date_from_url chosen = .ok dc ∧
      (∀ l dl, l ∈ mospiLinks mospiHtmlW → parse_date_from_url l = .ok dl →
        dl.ble dc = true) ∧
      get_mospi_cpi_latest (.ok mospiHtmlW) pdfNetW =
        ((extract_cpi_from_pdf chosen (pdfNetW chosen)).1,
         Effect.httpGet .mospiIndex mospiPageUrl 10 ::
           (extract_cpi_from_pdf chosen (pdfNetW chosen)).2) :=
  (C2_mospi mospiHtmlW pdfNetW).2.2 [⟨2025, 1, 12⟩, ⟨2025, 3, 5⟩]
    (by decide) (by decide)

end Econ
